import Mathlib

/-!
Verification of the invoice QC pipeline (`invoice_qc/validator.py` and
`invoice_qc/extractor.py`).

Numbers are modelled as `Rat`: every numeric value the claims exercise is an
exact decimal, so rational arithmetic agrees with the source's float
arithmetic on them.  Python's `float(...)` builtin is modelled by
`float_of_chars`, covering finite decimal literals with optional sign and
exponent (the shapes reachable from the cleaned amount strings).  Dates are
modelled by `PDate` together with a `strptime`-faithful parser: a format
matches only if the whole string matches, `%Y` takes exactly four digits,
`%d`/`%m` take one or two digits in range, and the resulting triple must be a
real calendar date (leap years included).

String manipulation is carried out on `List Char` with structurally
recursive helpers mirroring the Python string operations used by the source
(`strip`, `split`, `replace`, containment); this keeps every definition
kernel-computable.
-/

namespace InvoiceQC

/-! ## List-of-characters string primitives -/

/-- `str.strip()` restricted to the whitespace the inputs use. -/
def trimChars (l : List Char) : List Char :=
  ((l.dropWhile Char.isWhitespace).reverse.dropWhile Char.isWhitespace).reverse

/-- Split on a single-character separator, keeping empty pieces
(`str.split(sep)` / `String.splitOn` for one-character `sep`). -/
def splitOnChar (c : Char) : List Char → List (List Char)
  | [] => [[]]
  | x :: xs =>
    match splitOnChar c xs with
    | [] => [[]]
    | h :: t => if x = c then [] :: h :: t else (x :: h) :: t

/-- Split on runs of whitespace, dropping empty pieces (`str.split()`). -/
def splitWhitespace (l : List Char) : List (List Char) :=
  (splitOnCharPred l).filter (fun p => p ≠ [])
where
  splitOnCharPred : List Char → List (List Char)
    | [] => [[]]
    | x :: xs =>
      match splitOnCharPred xs with
      | [] => [[]]
      | h :: t => if x.isWhitespace then [] :: h :: t else (x :: h) :: t

/-- Substring containment (`pat in s` for plain patterns). -/
def containsSub (pat : List Char) : List Char → Bool
  | [] => pat.isPrefixOf []
  | x :: xs => pat.isPrefixOf (x :: xs) || containsSub pat xs

/-- Digit string to value (callers have checked `all isDigit`). -/
def digitsToNat (l : List Char) : Nat :=
  l.foldl (fun acc c => acc * 10 + (c.toNat - '0'.toNat)) 0

/-! ## Kernel-computable rational arithmetic

The standard `Rat.add/sub/mul/inv` are `@[irreducible]`, which blocks
`decide`-style evaluation.  The pipeline therefore uses the following
`mkRat`-based helpers; the `ratAdd_eq`-family lemmas below prove each one
equal to the corresponding standard operation, so the embedding computes the
very same rational values as the source's float arithmetic. -/

def ratAdd (a b : Rat) : Rat :=
  mkRat (a.num * (b.den : Int) + b.num * (a.den : Int)) (a.den * b.den)

def ratSub (a b : Rat) : Rat :=
  mkRat (a.num * (b.den : Int) - b.num * (a.den : Int)) (a.den * b.den)

def ratMul (a b : Rat) : Rat := mkRat (a.num * b.num) (a.den * b.den)

def ratNeg (a : Rat) : Rat := mkRat (-a.num) a.den

def ratAbs (a : Rat) : Rat := mkRat (a.num.natAbs : Int) a.den

def ratMax (a b : Rat) : Rat := if a ≤ b then b else a

/-! ## Amount parsing (`extractor._parse_float`) -/

/-- Sign handling of Python's `float` literal syntax: one optional leading
`+`/`-`. -/
def splitSign : List Char → Bool × List Char
  | '-' :: rest => (true, rest)
  | '+' :: rest => (false, rest)
  | l => (false, l)

/-- Unsigned decimal literal: digits with at most one point, at least one
digit overall; the value is `digits / 10 ^ fractional-length`. -/
def parseUnsignedDecimal (l : List Char) : Option Rat :=
  match splitOnChar '.' l with
  | [i] =>
    if i ≠ [] ∧ i.all Char.isDigit then some (mkRat (digitsToNat i : Int) 1)
    else none
  | [i, f] =>
    if (i ≠ [] ∨ f ≠ []) ∧ i.all Char.isDigit ∧ f.all Char.isDigit then
      some (mkRat (digitsToNat (i ++ f) : Int) (10 ^ f.length))
    else none
  | _ => none

def parseSignedDecimal (l : List Char) : Option Rat :=
  let (neg, mag) := splitSign l
  (parseUnsignedDecimal mag).map (fun q => if neg then ratNeg q else q)

def parseSignedInt (l : List Char) : Option Int :=
  let (neg, mag) := splitSign l
  if mag ≠ [] ∧ mag.all Char.isDigit then
    some (if neg then -((digitsToNat mag : Nat) : Int) else ((digitsToNat mag : Nat) : Int))
  else none

/-- `m * 10 ^ e` for integer `e`, in `mkRat` form. -/
def applyExp (m : Rat) (e : Int) : Rat :=
  if 0 ≤ e then mkRat (m.num * (10 : Int) ^ e.toNat) m.den
  else mkRat m.num (m.den * 10 ^ (-e).toNat)

/-- Model of Python's `float(s)` on finite decimal/scientific literals;
`none` where `float` raises `ValueError`. -/
def float_of_chars (l : List Char) : Option Rat :=
  match splitOnChar 'e' (l.map (fun c => if c = 'E' then 'e' else c)) with
  | [m] => parseSignedDecimal m
  | [m, ex] => do
    let mv ← parseSignedDecimal m
    let ev ← parseSignedInt ex
    pure (applyExp mv ev)
  | _ => none

/-- Currency glyphs removed by `_parse_float` (`re.sub(r"[₹$€£]", "", ...)`). -/
def glyphs : List Char := ['₹', '$', '€', '£']

/-- `value.strip()`, then glyph removal, then `replace(" ", "")`. -/
def clean_amount (cs : List Char) : List Char :=
  let c := trimChars cs
  let c := c.filter (fun ch => !(glyphs.contains ch))
  c.filter (fun ch => ch ≠ ' ')

/-- `extractor._parse_float`: `None`/empty give `none`; then the
comma/point normalisation branches (`.` removed then `,` mapped to `.` when
both occur, `,` mapped to `.` when only commas occur); any parse failure
gives `none`. -/
def parse_float (value : Option String) : Option Rat :=
  match value with
  | none => none
  | some v =>
    if v = "" then none
    else
      let cleaned := clean_amount v.data
      if cleaned.contains ',' && cleaned.contains '.' then
        float_of_chars ((cleaned.filter (fun ch => ch ≠ '.')).map
          (fun ch => if ch = ',' then '.' else ch))
      else if cleaned.contains ',' then
        float_of_chars (cleaned.map (fun ch => if ch = ',' then '.' else ch))
      else
        float_of_chars cleaned

/-! ## Date parsing (`validator._parse_date`) -/

structure PDate where
  year : Nat
  month : Nat
  day : Nat
deriving DecidableEq, Repr

def isLeap (y : Nat) : Bool :=
  (y % 4 == 0 && y % 100 != 0) || (y % 400 == 0)

def daysInMonth (y m : Nat) : Nat :=
  if m = 2 then (if isLeap y then 29 else 28)
  else if m = 4 ∨ m = 6 ∨ m = 9 ∨ m = 11 then 30
  else 31

/-- `%d` / `%m` field of CPython `strptime`: one or two digits, value within
`[1, hi]`. -/
def parse2Digit (l : List Char) (hi : Nat) : Option Nat :=
  if (1 ≤ l.length ∧ l.length ≤ 2) ∧ l.all Char.isDigit then
    let v := digitsToNat l
    if 1 ≤ v ∧ v ≤ hi then some v else none
  else none

/-- `%Y` field: exactly four digits; `datetime` additionally needs
`year ≥ 1`. -/
def parseYear (l : List Char) : Option Nat :=
  if l.length = 4 ∧ l.all Char.isDigit then
    let v := digitsToNat l
    if 1 ≤ v then some v else none
  else none

/-- Build a calendar-valid date from year/month/day digit strings. -/
def mkDate (ys ms ds : List Char) : Option PDate := do
  let y ← parseYear ys
  let m ← parse2Digit ms 12
  let d ← parse2Digit ds 31
  if d ≤ daysInMonth y m then pure ⟨y, m, d⟩ else none

def split3 (sep : Char) (v : List Char) : Option (List Char × List Char × List Char) :=
  match splitOnChar sep v with
  | [a, b, c] => some (a, b, c)
  | _ => none

def tryYMD (v : List Char) (sep : Char) : Option PDate := do
  let (a, b, c) ← split3 sep v
  mkDate a b c

def tryDMY (v : List Char) (sep : Char) : Option PDate := do
  let (a, b, c) ← split3 sep v
  mkDate c b a

/-- `validator._parse_date`: empty gives `none`, else strip and try the five
formats `%Y-%m-%d, %d-%m-%Y, %d/%m/%Y, %d.%m.%Y, %Y/%m/%d` in order. -/
def parse_date (value : String) : Option PDate :=
  if value = "" then none
  else
    let v := trimChars value.data
    tryYMD v '-' <|> tryDMY v '-' <|> tryDMY v '/' <|> tryDMY v '.' <|> tryYMD v '/'

/-- Order-isomorphic key for valid dates (month < 100, day < 100), matching
Python `date` comparison. -/
def dateKey (d : PDate) : Nat := d.year * 10000 + d.month * 100 + d.day

/-- `date(2000, 1, 1) <= d <= date(2100, 1, 1)`. -/
def date_in_range (d : PDate) : Bool :=
  20000101 ≤ dateKey d && dateKey d ≤ 21000101

/-! ## Data model -/

/-- One row of an invoice's itemised section.  The validator only reads
`line_total`; the other fields are produced by the line-item extractor. -/
structure LineItem where
  description : String := ""
  quantity : Option Rat := none
  unit_price : Option Rat := none
  line_total : Option Rat := none
deriving DecidableEq, Repr

/-- The invoice record assembled by the extractor (string fields stay raw;
`none` models an absent key, `some ""` an empty string).  `source_file` is
the `_source_file` key and `extraction_error` the `_extraction_error`
flag. -/
structure Invoice where
  invoice_number : Option String := none
  invoice_date : Option String := none
  due_date : Option String := none
  seller_name : Option String := none
  seller_tax_id : Option String := none
  buyer_name : Option String := none
  buyer_tax_id : Option String := none
  currency : Option String := none
  net_total : Option Rat := none
  tax_amount : Option Rat := none
  gross_total : Option Rat := none
  line_items : List LineItem := []
  source_file : Option String := none
  extraction_error : Bool := false
deriving DecidableEq, Repr

/-- Per-invoice validation result. -/
structure VResult where
  invoice_id : String
  is_valid : Bool
  errors : List String
deriving DecidableEq, Repr

structure Summary where
  total_invoices : Nat
  valid_invoices : Nat
  invalid_invoices : Nat
  error_counts : List (String × Nat)
deriving DecidableEq, Repr

/-! ## Per-invoice validation (`validator.validate_invoice`) -/

/-- Python `invoice.get(f) or ""`: `None` and `""` both give `""`. -/
def orEmpty (o : Option String) : String := o.getD ""

/-- Python `invoice.get(f) in (None, "")` for string-valued fields. -/
def strMissing : Option String → Bool
  | none => true
  | some s => s == ""

/-- `REQUIRED_FIELDS` from the source. -/
def REQUIRED_FIELDS : List String :=
  ["invoice_number", "invoice_date", "seller_name", "buyer_name", "currency",
    "gross_total"]

/-- The required-field loop, unrolled in `REQUIRED_FIELDS` order.  A numeric
`gross_total` is missing only when the key is absent (a float never equals
`None` or `""`). -/
def req_errors (inv : Invoice) : List String :=
  (if strMissing inv.invoice_number then ["missing_field: invoice_number"] else [])
  ++ (if strMissing inv.invoice_date then ["missing_field: invoice_date"] else [])
  ++ (if strMissing inv.seller_name then ["missing_field: seller_name"] else [])
  ++ (if strMissing inv.buyer_name then ["missing_field: buyer_name"] else [])
  ++ (if strMissing inv.currency then ["missing_field: currency"] else [])
  ++ (if inv.gross_total.isNone then ["missing_field: gross_total"] else [])

/-- The per-date-field block: `invalid_format` for a non-empty unparseable
value, `out_of_range` for a parsed date outside the window (`parse_date ""`
is `none`, so an absent field adds nothing). -/
def date_field_errors (raw : String) (nm : String) : List String :=
  match parse_date raw with
  | none => if raw = "" then [] else ["invalid_format: " ++ nm]
  | some d => if date_in_range d then [] else ["out_of_range: " ++ nm]

def ALLOWED_CURRENCIES : List String := ["INR", "EUR", "USD", "GBP", "CHF", "JPY"]

/-- Python `str.upper()` (ASCII-faithful), as a character-list map. -/
def upperStr (s : String) : String := String.mk (s.data.map Char.toUpper)

def currency_errors (inv : Invoice) : List String :=
  match inv.currency with
  | some c =>
    if c ≠ "" then
      if ALLOWED_CURRENCIES.contains (upperStr c) then [] else ["invalid_value: currency"]
    else ["missing_field: currency"]
  | none => ["missing_field: currency"]

def neg_err (o : Option Rat) (nm : String) : List String :=
  match o with
  | some v => if v < 0 then ["anomaly:negative_" ++ nm] else []
  | none => []

def negative_errors (inv : Invoice) : List String :=
  neg_err inv.net_total "net_total" ++ neg_err inv.tax_amount "tax_amount"
    ++ neg_err inv.gross_total "gross_total"

/-- `_approx_equal` with its default tolerances
(`diff <= max(0.01, 0.01 * max(|a|, |b|))`); callers guard against `None`. -/
def approx_equal (a b : Rat) : Bool :=
  ratAbs (ratSub a b) ≤ ratMax (mkRat 1 100) (ratMul (mkRat 1 100) (ratMax (ratAbs a) (ratAbs b)))

def totals_errors (inv : Invoice) : List String :=
  match inv.net_total, inv.tax_amount, inv.gross_total with
  | some n, some t, some g =>
    if approx_equal (ratAdd n t) g then [] else ["business_rule_failed: totals_mismatch"]
  | _, _, _ => []

/-- Line-item sum reconciliation: fires only when some line item carries a
numeric `line_total` and `net_total` is numeric. -/
def line_sum_errors (inv : Invoice) : List String :=
  let totals := inv.line_items.filterMap (fun li => li.line_total)
  match inv.net_total with
  | some n =>
    if !totals.isEmpty && !approx_equal (totals.foldl ratAdd 0) n then
      ["business_rule_failed: line_items_sum_mismatch"]
    else []
  | none => []

def date_order_errors (inv : Invoice) : List String :=
  match parse_date (orEmpty inv.invoice_date), parse_date (orEmpty inv.due_date) with
  | some di, some dd =>
    if dateKey dd < dateKey di then ["business_rule_failed: due_before_invoice_date"] else []
  | _, _ => []

/-- `invoice.get("invoice_number") or invoice.get("_source_file") or "<unknown>"`. -/
def invoice_id_of (inv : Invoice) : String :=
  if orEmpty inv.invoice_number ≠ "" then orEmpty inv.invoice_number
  else if orEmpty inv.source_file ≠ "" then orEmpty inv.source_file
  else "<unknown>"

/-- `validator.validate_invoice` with the error blocks concatenated in
source order (required fields, invoice_date, due_date, currency, negative
amounts, totals, line-item sum, date ordering). -/
def validate_invoice (inv : Invoice) : VResult :=
  let errors :=
    req_errors inv
    ++ date_field_errors (orEmpty inv.invoice_date) "invoice_date"
    ++ date_field_errors (orEmpty inv.due_date) "due_date"
    ++ currency_errors inv
    ++ negative_errors inv
    ++ totals_errors inv
    ++ line_sum_errors inv
    ++ date_order_errors inv
  { invoice_id := invoice_id_of inv, is_valid := errors.isEmpty, errors := errors }

/-! ## Batch validation (`validator.validate_invoices`) -/

/-- Duplicate-detection composite key
(`inv.get("invoice_number") or ""`, seller, raw date). -/
def dup_key (inv : Invoice) : String × String × String :=
  (orEmpty inv.invoice_number, orEmpty inv.seller_name, orEmpty inv.invoice_date)

def key_nonempty (k : String × String × String) : Bool :=
  k.1 != "" || k.2.1 != "" || k.2.2 != ""

/-- Distinct elements in first-occurrence order, skipping elements already
seen: the iteration order of a Python `Counter` built by successive
updates. -/
def firstOccsAux {α : Type} [DecidableEq α] (seen : List α) : List α → List α
  | [] => []
  | a :: as =>
    if seen.contains a then firstOccsAux seen as
    else a :: firstOccsAux (a :: seen) as

def firstOccs {α : Type} [DecidableEq α] (l : List α) : List α := firstOccsAux [] l

def flag_dup (r : VResult) : VResult :=
  { r with errors := r.errors ++ ["anomaly:duplicate_invoice"], is_valid := false }

/-- The body of the duplicate loop for one composite key: if the key occurs
more than once and is not entirely empty, every result whose `invoice_id`
equals the key's (truthy) invoice number is flagged in place. -/
def dup_step (keys : List (String × String × String)) (rs : List VResult)
    (k : String × String × String) : List VResult :=
  if keys.count k > 1 ∧ key_nonempty k then
    rs.map (fun r => if k.1 ≠ "" ∧ r.invoice_id = k.1 then flag_dup r else r)
  else rs

/-- The whole second pass over the key counter. -/
def dup_pass (invs : List Invoice) (rs : List VResult) : List VResult :=
  let keys := invs.map dup_key
  (firstOccs keys).foldl (dup_step keys) rs

def summary_of (rs : List VResult) : Summary :=
  let total := rs.length
  let invalid := (rs.filter (fun r => !r.is_valid)).length
  let allErrs := (rs.map (fun r => r.errors)).flatten
  { total_invoices := total
    valid_invoices := total - invalid
    invalid_invoices := invalid
    error_counts := (firstOccs allErrs).map (fun e => (e, allErrs.count e)) }

/-- `validator.validate_invoices`: per-invoice pass, duplicate detection,
summary aggregation. -/
def validate_invoices (invs : List Invoice) : List VResult × Summary :=
  let results := invs.map validate_invoice
  let results := dup_pass invs results
  (results, summary_of results)

/-! ## Line-item extraction (`extractor.extract_line_items`) -/

/-- `text.splitlines()`, each line stripped, empties dropped. -/
def toLines (text : String) : List (List Char) :=
  ((splitOnChar '\n' text.data).map trimChars).filter (fun l => l ≠ [])

def lowerChars (l : List Char) : List Char := l.map Char.toLower

/-- Case-insensitive plain-substring search, the effect of
`re.search(word, ln, re.IGNORECASE)` for the letter-only patterns used
here. -/
def containsCI (l : List Char) (pat : List Char) : Bool :=
  containsSub pat (lowerChars l)

/-- Header detection: "description" together with "qty"/"quantity" or
"rate"/"price". -/
def is_header_line (ln : List Char) : Bool :=
  containsCI ln "description".data &&
    (containsCI ln "qty".data || containsCI ln "quantity".data ||
      containsCI ln "rate".data || containsCI ln "price".data)

def parse_float_str (l : List Char) : Option Rat := parse_float (some (String.mk l))

/-- The leading-token loop of `extract_line_items`: first parseable token
becomes quantity, the next parseable one unit price, everything else joins
the description. -/
def consume_tokens : List (List Char) → Option Rat → Option Rat → List (List Char) →
    Option Rat × Option Rat × List (List Char)
  | [], q, u, acc => (q, u, acc)
  | p :: ps, q, u, acc =>
    match q with
    | none =>
      match parse_float_str p with
      | some v => consume_tokens ps (some v) u acc
      | none => consume_tokens ps none u (acc ++ [p])
    | some _ =>
      match u with
      | none =>
        match parse_float_str p with
        | some v => consume_tokens ps q (some v) acc
        | none => consume_tokens ps q u (acc ++ [p])
      | some _ => consume_tokens ps q u (acc ++ [p])

def intercalateSpace : List (List Char) → List Char
  | [] => []
  | [x] => x
  | x :: xs => x ++ ' ' :: intercalateSpace xs

/-- One data line: the last whitespace token must parse as a number or the
line is skipped (`none`); the description defaults to "Item". -/
def parse_item_line (ln : List Char) : Option LineItem :=
  let parts := splitWhitespace ln
  match parts.getLast? with
  | none => none
  | some lastTok =>
    match parse_float_str lastTok with
    | none => none
    | some total =>
      let (q, u, desc) := consume_tokens parts.dropLast none none []
      some { description := if desc.isEmpty then "Item" else String.mk (intercalateSpace desc)
             quantity := q
             unit_price := u
             line_total := some total }

/-- Consume data lines until one matching "total" (exclusive) or the end. -/
def consume_items : List (List Char) → List LineItem
  | [] => []
  | ln :: rest =>
    if containsCI ln "total".data then []
    else
      match parse_item_line ln with
      | some it => it :: consume_items rest
      | none => consume_items rest

/-- `extractor.extract_line_items`. -/
def extract_line_items (text : String) : List LineItem :=
  let lines := toLines text
  match lines.findIdx? is_header_line with
  | none => []
  | some i => consume_items (lines.drop (i + 1))

/-! ## Currency inference (`extractor.infer_currency_from_text`) -/

def CURRENCY_CODES : List String := ["INR", "EUR", "USD", "GBP", "CHF", "JPY"]

/-- Python regex `\w` (ASCII part, which is all the codes need). -/
def wordChar (c : Char) : Bool := c.isAlphanum || c = '_'

/-- Does `code` match at the head of `cs` with `\b` on both sides
(`prev` is the character before the head, if any)?  The match is
case-sensitive, exactly like `re.search(r"\b(INR|...)\b", text)`. -/
def code_matches_at (code : List Char) (prev : Option Char) (cs : List Char) : Bool :=
  code.isPrefixOf cs &&
    (match prev with
     | none => true
     | some p => !wordChar p) &&
    (match cs.drop code.length with
     | [] => true
     | c :: _ => !wordChar c)

/-- Leftmost match of the alternation, alternatives tried in order at each
position. -/
def find_code (codes : List String) (prev : Option Char) : List Char → Option String
  | [] => none
  | c :: rest =>
    match codes.find? (fun code => code_matches_at code.data prev (c :: rest)) with
    | some code => some code
    | none => find_code codes (some c) rest

/-- `extractor.infer_currency_from_text`: explicit code first, then the
symbol fallbacks in source order. -/
def infer_currency_from_text (text : String) : Option String :=
  match find_code CURRENCY_CODES none text.data with
  | some code => some code
  | none =>
    if text.data.contains '₹' then some "INR"
    else if text.data.contains '€' then some "EUR"
    else if text.data.contains '$' then some "USD"
    else if text.data.contains '£' then some "GBP"
    else none

/-! ## Batch assembly (`extractor.extract_invoices_from_pdfs`)

Listing the directory and reading a PDF are external I/O: a document is
modelled as its filename together with the text-extraction outcome
(`none` when `extract_text_from_pdf` raises).  The per-document scalar-field
regex extraction (`extract_basic_fields`) is taken as a parameter
`extract_fields`, so the theorems about this function hold for the actual
regex battery as a special case. -/

structure ExtractedDoc where
  fname : String
  text : Option String

/-- The all-fields-absent invoice appended when text extraction raises. -/
def failed_invoice (fname : String) : Invoice :=
  { invoice_number := none, invoice_date := none, due_date := none,
    seller_name := none, seller_tax_id := none, buyer_name := none,
    buyer_tax_id := none, currency := none, net_total := none,
    tax_amount := none, gross_total := none, line_items := [],
    source_file := some fname, extraction_error := true }

/-- Successful branch: base fields plus line items, source file and the
cleared failure flag. -/
def assemble_ok (extract_fields : String → Invoice) (fname : String) (text : String) : Invoice :=
  { extract_fields text with
    line_items := extract_line_items text
    source_file := some fname
    extraction_error := false }

/-- `fname.lower().endswith(".pdf")`. -/
def is_pdf_name (fname : String) : Bool :=
  (".pdf".data).isSuffixOf (fname.data.map Char.toLower)

def extract_invoices_from_pdfs (extract_fields : String → Invoice)
    (docs : List ExtractedDoc) : List Invoice :=
  (docs.filter (fun d => is_pdf_name d.fname)).map (fun d =>
    match d.text with
    | none => failed_invoice d.fname
    | some t => assemble_ok extract_fields d.fname t)

/-! ## Specification artefacts for the duplicate pass -/

/-- A result after `n` duplicate flags: the duplicate error appended `n`
times, validity cleared as soon as `n > 0`. -/
def flagN (n : Nat) (r : VResult) : VResult :=
  { r with errors := r.errors ++ List.replicate n "anomaly:duplicate_invoice",
           is_valid := r.is_valid && n == 0 }

/-- Does key `k` of the counted grouping flag a result with identifier
`id`?  (`k` duplicated, not entirely empty, truthy invoice number equal to
`id`.) -/
def dup_hits (keys : List (String × String × String)) (k : String × String × String)
    (id : String) : Bool :=
  decide (keys.count k > 1) && key_nonempty k && decide (k.1 ≠ "") && decide (id = k.1)

/-- The effect of one `dup_step` on one result. -/
def step_el (keys : List (String × String × String)) (k : String × String × String)
    (r : VResult) : VResult :=
  if keys.count k > 1 ∧ key_nonempty k = true then
    (if k.1 ≠ "" ∧ r.invoice_id = k.1 then flag_dup r else r)
  else r

/-- Does `code` occur in the character stream (with word boundaries),
scanning from a position whose previous character is `prev`? -/
def word_occurs_from (code : String) (prev : Option Char) : List Char → Bool
  | [] => false
  | c :: rest =>
    code_matches_at code.data prev (c :: rest) || word_occurs_from code (some c) rest

/-- `re.search(r"\b<code>\b", text)` succeeds (case-sensitively). -/
def word_occurs (code : String) (text : String) : Bool :=
  word_occurs_from code none text.data

/-- The concrete invoice exercising C2's scenario. -/
def c2_sample_invoice : Invoice :=
  { invoice_number := none, seller_name := some "", currency := some "XYZ",
    net_total := some 100, tax_amount := some 18, gross_total := some 150,
    invoice_date := some "2024-05-10", due_date := some "2024-05-01",
    buyer_name := some "Buyer",
    line_items := [{ description := "A", line_total := some 50 }] }

/-- A trivial field extractor for concrete batch examples. -/
def no_fields_extractor : String → Invoice := fun _ => {}

/-! # Theorems -/

/-! ## The `mkRat` arithmetic agrees with the standard operations -/

theorem num_cast_eq (a : Rat) : ((a.num : Rat)) = a * (a.den : Rat) := by
  have hden : ((a.den : Rat)) ≠ 0 := (Nat.cast_ne_zero (R := Rat)).mpr a.den_nz
  calc ((a.num : Rat)) = (a.num : Rat) / (a.den : Rat) * (a.den : Rat) :=
        (div_mul_cancel₀ _ hden).symm
    _ = a * (a.den : Rat) := by rw [Rat.num_div_den]

theorem ratAdd_eq (a b : Rat) : ratAdd a b = a + b := by
  have ha : ((a.den : Rat)) ≠ 0 := by exact_mod_cast a.den_nz
  have hb : ((b.den : Rat)) ≠ 0 := by exact_mod_cast b.den_nz
  rw [ratAdd, Rat.mkRat_eq_div]
  push_cast
  rw [div_eq_iff (mul_ne_zero ha hb), num_cast_eq, num_cast_eq]
  ring

theorem ratSub_eq (a b : Rat) : ratSub a b = a - b := by
  have ha : ((a.den : Rat)) ≠ 0 := by exact_mod_cast a.den_nz
  have hb : ((b.den : Rat)) ≠ 0 := by exact_mod_cast b.den_nz
  rw [ratSub, Rat.mkRat_eq_div]
  push_cast
  rw [div_eq_iff (mul_ne_zero ha hb), num_cast_eq, num_cast_eq]
  ring

theorem ratMul_eq (a b : Rat) : ratMul a b = a * b := by
  have ha : ((a.den : Rat)) ≠ 0 := by exact_mod_cast a.den_nz
  have hb : ((b.den : Rat)) ≠ 0 := by exact_mod_cast b.den_nz
  rw [ratMul, Rat.mkRat_eq_div]
  push_cast
  rw [div_eq_iff (mul_ne_zero ha hb), num_cast_eq, num_cast_eq]
  ring

theorem ratNeg_eq (a : Rat) : ratNeg a = -a := by
  rw [ratNeg, Rat.mkRat_eq_div]
  push_cast
  rw [neg_div, Rat.num_div_den]

theorem ratAbs_eq (a : Rat) : ratAbs a = |a| := by
  rw [ratAbs, Rat.mkRat_eq_div]
  push_cast [Int.cast_natAbs]
  rw [show ((a.den : Rat)) = |((a.den : Rat))| from
      (abs_of_nonneg (by positivity)).symm, ← abs_div, Rat.num_div_den]

theorem ratMax_eq (a b : Rat) : ratMax a b = max a b := by
  rw [ratMax, max_def]

/-- `approx_equal` is literally `_approx_equal`'s
`|a - b| <= max(0.01, 0.01 * max(|a|, |b|))` over the standard operations. -/
theorem approx_equal_eq (a b : Rat) :
    approx_equal a b = decide (|a - b| ≤ max (1/100 : Rat) ((1/100) * max |a| |b|)) := by
  have h : (mkRat 1 100 : Rat) = 1/100 := by
    rw [Rat.mkRat_eq_div]; norm_num
  rw [approx_equal, ratAbs_eq, ratSub_eq, ratMax_eq, ratMul_eq, ratMax_eq, ratAbs_eq,
    ratAbs_eq, h]

/-! ## Membership shapes of the error blocks -/

theorem mem_req_errors {inv : Invoice} {x : String} (h : x ∈ req_errors inv) :
    x ∈ ["missing_field: invoice_number", "missing_field: invoice_date",
      "missing_field: seller_name", "missing_field: buyer_name",
      "missing_field: currency", "missing_field: gross_total"] := by
  simp only [req_errors, List.mem_append] at h
  rcases h with ((((h | h) | h) | h) | h) | h <;> (split at h <;> simp_all)

theorem mem_date_field_errors {raw nm : String} {x : String}
    (h : x ∈ date_field_errors raw nm) :
    x = "invalid_format: " ++ nm ∨ x = "out_of_range: " ++ nm := by
  unfold date_field_errors at h
  split at h <;> split at h <;> simp_all

theorem mem_currency_errors {inv : Invoice} {x : String} (h : x ∈ currency_errors inv) :
    x = "invalid_value: currency" ∨ x = "missing_field: currency" := by
  unfold currency_errors at h
  split at h
  · split at h
    · split at h <;> simp_all
    · simp_all
  · simp_all

theorem mem_neg_err {o : Option Rat} {nm x : String} (h : x ∈ neg_err o nm) :
    x = "anomaly:negative_" ++ nm := by
  unfold neg_err at h
  split at h <;> try split at h
  all_goals simp_all

theorem mem_negative_errors {inv : Invoice} {x : String} (h : x ∈ negative_errors inv) :
    x = "anomaly:negative_net_total" ∨ x = "anomaly:negative_tax_amount" ∨
      x = "anomaly:negative_gross_total" := by
  simp only [negative_errors, List.mem_append] at h
  rcases h with (h | h) | h
  · exact Or.inl (mem_neg_err h)
  · exact Or.inr (Or.inl (mem_neg_err h))
  · exact Or.inr (Or.inr (mem_neg_err h))

theorem mem_totals_errors {inv : Invoice} {x : String} (h : x ∈ totals_errors inv) :
    x = "business_rule_failed: totals_mismatch" := by
  unfold totals_errors at h
  split at h <;> try split at h
  all_goals simp_all

theorem mem_line_sum_errors {inv : Invoice} {x : String} (h : x ∈ line_sum_errors inv) :
    x = "business_rule_failed: line_items_sum_mismatch" := by
  unfold line_sum_errors at h
  split at h <;> try split at h
  all_goals simp_all

theorem mem_date_order_errors {inv : Invoice} {x : String} (h : x ∈ date_order_errors inv) :
    x = "business_rule_failed: due_before_invoice_date" := by
  unfold date_order_errors at h
  split at h <;> try split at h
  all_goals simp_all

/-! ## Shape of `validate_invoice` -/

theorem validate_invoice_errors (inv : Invoice) :
    (validate_invoice inv).errors =
      req_errors inv
      ++ date_field_errors (orEmpty inv.invoice_date) "invoice_date"
      ++ date_field_errors (orEmpty inv.due_date) "due_date"
      ++ currency_errors inv
      ++ negative_errors inv
      ++ totals_errors inv
      ++ line_sum_errors inv
      ++ date_order_errors inv := rfl

theorem validate_invoice_is_valid (inv : Invoice) :
    (validate_invoice inv).is_valid = (validate_invoice inv).errors.isEmpty := rfl

theorem validate_is_valid_iff (inv : Invoice) :
    (validate_invoice inv).is_valid = true ↔ (validate_invoice inv).errors = [] := by
  rw [validate_invoice_is_valid, List.isEmpty_iff]

theorem validate_is_valid_false_of_mem {inv : Invoice} {x : String}
    (h : x ∈ (validate_invoice inv).errors) : (validate_invoice inv).is_valid = false := by
  rw [Bool.eq_false_iff]
  intro hv
  rw [validate_is_valid_iff inv] at hv
  rw [hv] at h
  exact absurd h (List.not_mem_nil x)

/-! ## Claim theorems -/

/-- C3: the amount parser strips currency glyphs and spaces; with both `,`
and `.` present it removes the points and promotes the comma to the decimal
point, with `,` alone it promotes the comma, otherwise it parses as-is;
hence `parseAmount("118.00") = 118.00`, `parseAmount("1.285,20") = 1285.20`
and `parseAmount("64,00") = 64.00`. -/
theorem C3_parse_amount :
    parse_float (some "118.00") = some (118.00 : Rat) ∧
    parse_float (some "1.285,20") = some (1285.20 : Rat) ∧
    parse_float (some "64,00") = some (64.00 : Rat) := by
  refine ⟨?_, ?_, ?_⟩
  · rw [show (118.00 : Rat) = 118 by norm_num]
    decide
  · rw [show (1285.20 : Rat) = mkRat 6426 5 by rw [Rat.mkRat_eq_div]; norm_num]
    decide
  · rw [show (64.00 : Rat) = 64 by norm_num]
    decide

/-- C2: an invoice with `invoice_number` and `seller_name` absent or empty,
currency `"XYZ"`, `net_total = 100`, `tax_amount = 18`, `gross_total = 150`,
a parseable due date strictly before a parseable invoice date, and exactly
one line item with `line_total = 50`, accumulates the two distinct
missing-field errors, the currency whitelist error, both reconciliation
errors and the date-ordering error, and is invalid. -/
theorem C2_rich_invalid_invoice (inv : Invoice) (li : LineItem) (di dd : PDate)
    (hnum : strMissing inv.invoice_number = true)
    (hsel : strMissing inv.seller_name = true)
    (hcur : inv.currency = some "XYZ")
    (hnet : inv.net_total = some 100)
    (htax : inv.tax_amount = some 18)
    (hgross : inv.gross_total = some 150)
    (hli : inv.line_items = [li])
    (hlt : li.line_total = some 50)
    (hdi : parse_date (orEmpty inv.invoice_date) = some di)
    (hdd : parse_date (orEmpty inv.due_date) = some dd)
    (hord : dateKey dd < dateKey di) :
    "missing_field: invoice_number" ∈ (validate_invoice inv).errors ∧
    "missing_field: seller_name" ∈ (validate_invoice inv).errors ∧
    "invalid_value: currency" ∈ (validate_invoice inv).errors ∧
    "business_rule_failed: totals_mismatch" ∈ (validate_invoice inv).errors ∧
    "business_rule_failed: line_items_sum_mismatch" ∈ (validate_invoice inv).errors ∧
    "business_rule_failed: due_before_invoice_date" ∈ (validate_invoice inv).errors ∧
    (validate_invoice inv).is_valid = false := by
  have h1 : "missing_field: invoice_number" ∈ req_errors inv := by
    simp [req_errors, hnum]
  have h2 : "missing_field: seller_name" ∈ req_errors inv := by
    simp [req_errors, hsel]
  have hc : "invalid_value: currency" ∈ currency_errors inv := by
    unfold currency_errors
    rw [hcur]
    decide
  have ht : "business_rule_failed: totals_mismatch" ∈ totals_errors inv := by
    unfold totals_errors
    rw [hnet, htax, hgross]
    decide
  have hl : "business_rule_failed: line_items_sum_mismatch" ∈ line_sum_errors inv := by
    unfold line_sum_errors
    rw [hli, hnet]
    simp only [List.filterMap_cons, List.filterMap_nil, hlt]
    decide
  have ho : "business_rule_failed: due_before_invoice_date" ∈ date_order_errors inv := by
    unfold date_order_errors
    rw [hdi, hdd]
    simp only [if_pos hord]
    exact List.mem_singleton.mpr rfl
  have E := validate_invoice_errors inv
  have H1 : "missing_field: invoice_number" ∈ (validate_invoice inv).errors := by
    rw [E]; simp only [List.mem_append]; exact Or.inl (Or.inl (Or.inl (Or.inl (Or.inl
      (Or.inl (Or.inl h1))))))
  have H2 : "missing_field: seller_name" ∈ (validate_invoice inv).errors := by
    rw [E]; simp only [List.mem_append]; exact Or.inl (Or.inl (Or.inl (Or.inl (Or.inl
      (Or.inl (Or.inl h2))))))
  have HC : "invalid_value: currency" ∈ (validate_invoice inv).errors := by
    rw [E]; simp only [List.mem_append]; exact Or.inl (Or.inl (Or.inl (Or.inl (Or.inr hc))))
  have HT : "business_rule_failed: totals_mismatch" ∈ (validate_invoice inv).errors := by
    rw [E]; simp only [List.mem_append]; exact Or.inl (Or.inl (Or.inr ht))
  have HL : "business_rule_failed: line_items_sum_mismatch" ∈ (validate_invoice inv).errors := by
    rw [E]; simp only [List.mem_append]; exact Or.inl (Or.inr hl)
  have HO : "business_rule_failed: due_before_invoice_date" ∈ (validate_invoice inv).errors := by
    rw [E]; simp only [List.mem_append]; exact Or.inr ho
  exact ⟨H1, H2, HC, HT, HL, HO, validate_is_valid_false_of_mem H1⟩

/-- Witness for C2 at a concrete invoice. -/
theorem C2_rich_invalid_invoice_witness :
    "missing_field: invoice_number" ∈ (validate_invoice c2_sample_invoice).errors ∧
    "missing_field: seller_name" ∈ (validate_invoice c2_sample_invoice).errors ∧
    "invalid_value: currency" ∈ (validate_invoice c2_sample_invoice).errors ∧
    "business_rule_failed: totals_mismatch" ∈ (validate_invoice c2_sample_invoice).errors ∧
    "business_rule_failed: line_items_sum_mismatch" ∈
      (validate_invoice c2_sample_invoice).errors ∧
    "business_rule_failed: due_before_invoice_date" ∈
      (validate_invoice c2_sample_invoice).errors ∧
    (validate_invoice c2_sample_invoice).is_valid = false :=
  C2_rich_invalid_invoice c2_sample_invoice { description := "A", line_total := some 50 }
    ⟨2024, 5, 10⟩ ⟨2024, 5, 1⟩ (by decide) (by decide) rfl rfl rfl rfl rfl rfl
    (by decide) (by decide) (by decide)

theorem count_if_block (b : Bool) (s t : String) :
    (if b = true then [s] else []).count t = if b = true ∧ s = t then 1 else 0 := by
  cases b <;> by_cases hst : s = t <;>
    simp [hst, List.count_singleton', List.count_nil]

theorem count_req_currency (inv : Invoice) :
    (req_errors inv).count "missing_field: currency" =
      if strMissing inv.currency = true then 1 else 0 := by
  unfold req_errors
  simp only [List.count_append, count_if_block]
  simp

theorem currency_errors_of_missing {inv : Invoice} (h : strMissing inv.currency = true) :
    currency_errors inv = ["missing_field: currency"] := by
  unfold currency_errors
  cases hc : inv.currency with
  | none => rfl
  | some c =>
    rw [hc] at h
    simp only [strMissing] at h
    simp [beq_iff_eq.mp h]

theorem invalid_value_mem_currency_iff (inv : Invoice) :
    "invalid_value: currency" ∈ currency_errors inv ↔
      ∃ c, inv.currency = some c ∧ c ≠ "" ∧
        ALLOWED_CURRENCIES.contains (upperStr c) = false := by
  unfold currency_errors
  cases hc : inv.currency with
  | none => simp
  | some c =>
    by_cases hne : c = ""
    · simp [hne]
    · by_cases hcon : ALLOWED_CURRENCIES.contains (upperStr c) = true
      · simp [hne, hcon]
      · simp only [Bool.not_eq_true] at hcon
        simp [hne, hcon]

theorem invalid_value_mem_iff (inv : Invoice) :
    "invalid_value: currency" ∈ (validate_invoice inv).errors ↔
      "invalid_value: currency" ∈ currency_errors inv := by
  rw [validate_invoice_errors]
  simp only [List.mem_append]
  constructor
  · rintro (((((((h | h) | h) | h) | h) | h) | h) | h)
    · exact absurd (mem_req_errors h) (by decide)
    · rcases mem_date_field_errors h with h | h <;> exact absurd h (by decide)
    · rcases mem_date_field_errors h with h | h <;> exact absurd h (by decide)
    · exact h
    · rcases mem_negative_errors h with h | h | h <;> exact absurd h (by decide)
    · exact absurd (mem_totals_errors h) (by decide)
    · exact absurd (mem_line_sum_errors h) (by decide)
    · exact absurd (mem_date_order_errors h) (by decide)
  · intro h
    exact Or.inl (Or.inl (Or.inl (Or.inl (Or.inr h))))

/-- C5: with `currency` absent or empty both the required-field rule and
the currency rule fire, so "missing_field: currency" appears exactly twice;
and "invalid_value: currency" appears exactly when `currency` is a
non-empty string whose upper-casing is outside the whitelist. -/
theorem C5_currency_rules (inv : Invoice) :
    (strMissing inv.currency = true →
      ((validate_invoice inv).errors).count "missing_field: currency" = 2) ∧
    ("invalid_value: currency" ∈ (validate_invoice inv).errors ↔
      ∃ c, inv.currency = some c ∧ c ≠ "" ∧
        ALLOWED_CURRENCIES.contains (upperStr c) = false) := by
  constructor
  · intro h
    rw [validate_invoice_errors]
    simp only [List.count_append]
    rw [count_req_currency, if_pos h, currency_errors_of_missing h]
    have z1 : ∀ raw, (date_field_errors raw "invoice_date").count "missing_field: currency" = 0 :=
      fun raw => List.count_eq_zero.mpr (fun hm => by
        rcases mem_date_field_errors hm with h' | h' <;> exact absurd h' (by decide))
    have z2 : ∀ raw, (date_field_errors raw "due_date").count "missing_field: currency" = 0 :=
      fun raw => List.count_eq_zero.mpr (fun hm => by
        rcases mem_date_field_errors hm with h' | h' <;> exact absurd h' (by decide))
    have z3 : (negative_errors inv).count "missing_field: currency" = 0 :=
      List.count_eq_zero.mpr (fun hm => by
        rcases mem_negative_errors hm with h' | h' | h' <;> exact absurd h' (by decide))
    have z4 : (totals_errors inv).count "missing_field: currency" = 0 :=
      List.count_eq_zero.mpr (fun hm => absurd (mem_totals_errors hm) (by decide))
    have z5 : (line_sum_errors inv).count "missing_field: currency" = 0 :=
      List.count_eq_zero.mpr (fun hm => absurd (mem_line_sum_errors hm) (by decide))
    have z6 : (date_order_errors inv).count "missing_field: currency" = 0 :=
      List.count_eq_zero.mpr (fun hm => absurd (mem_date_order_errors hm) (by decide))
    rw [z1, z2, z3, z4, z5, z6]
    decide
  · rw [invalid_value_mem_iff]
    exact invalid_value_mem_currency_iff inv

/-- Witness for C5: the empty invoice gets "missing_field: currency"
twice. -/
theorem C5_currency_rules_witness :
    (validate_invoice ({} : Invoice)).errors.count "missing_field: currency" = 2 :=
  (C5_currency_rules {}).1 (by decide)

/-! ## Duplicate-pass characterisation -/

theorem flagN_zero (r : VResult) : flagN 0 r = r := by
  simp [flagN]

theorem flag_dup_eq_flagN_one (r : VResult) : flag_dup r = flagN 1 r := by
  simp [flag_dup, flagN]

theorem flagN_invoice_id (n : Nat) (r : VResult) : (flagN n r).invoice_id = r.invoice_id := rfl

theorem beq_zero_and (n m : Nat) : ((n == 0) && (m == 0)) = (n + m == 0) := by
  cases n <;> simp [Nat.succ_add]

theorem flagN_flagN (m n : Nat) (r : VResult) : flagN m (flagN n r) = flagN (n + m) r := by
  unfold flagN
  simp only [List.append_assoc, ← List.replicate_add, Bool.and_assoc, beq_zero_and]

theorem dup_step_length (keys : List (String × String × String)) (rs : List VResult)
    (k : String × String × String) : (dup_step keys rs k).length = rs.length := by
  unfold dup_step
  split <;> simp

theorem foldl_dup_length (keys ks : List (String × String × String)) (rs : List VResult) :
    (ks.foldl (dup_step keys) rs).length = rs.length := by
  induction ks generalizing rs with
  | nil => rfl
  | cons k ks ih => rw [List.foldl_cons, ih, dup_step_length]

theorem step_el_invoice_id (keys : List (String × String × String))
    (k : String × String × String) (r : VResult) :
    (step_el keys k r).invoice_id = r.invoice_id := by
  unfold step_el
  split <;> try split
  all_goals rfl

theorem step_el_flagN (keys : List (String × String × String))
    (k : String × String × String) (r : VResult) :
    step_el keys k r = flagN (if dup_hits keys k r.invoice_id then 1 else 0) r := by
  unfold step_el dup_hits
  by_cases h1 : keys.count k > 1 <;>
    by_cases h2 : key_nonempty k = true <;>
      by_cases h3 : k.1 ≠ "" <;>
        by_cases h4 : r.invoice_id = k.1 <;>
          simp [h1, h2, h3, h4, flagN_zero, flag_dup_eq_flagN_one]

theorem dup_step_getElem (keys : List (String × String × String)) (rs : List VResult)
    (k : String × String × String) (i : Nat) :
    (dup_step keys rs k)[i]? = (rs[i]?).map (step_el keys k) := by
  unfold dup_step
  split
  next h =>
    rw [List.getElem?_map]
    cases hr : rs[i]? with
    | none => rfl
    | some r => simp [step_el, h]
  next h =>
    cases hr : rs[i]? with
    | none => rfl
    | some r => simp [step_el, h]

/-- Pointwise characterisation of the duplicate fold: every result is its
input with the duplicate error appended once per qualifying key matching
its `invoice_id`. -/
theorem foldl_dup_getElem (keys ks : List (String × String × String))
    (rs : List VResult) (i : Nat) :
    (ks.foldl (dup_step keys) rs)[i]? =
      (rs[i]?).map (fun r => flagN (ks.countP (fun k => dup_hits keys k r.invoice_id)) r) := by
  induction ks generalizing rs with
  | nil =>
    simp only [List.foldl_nil, List.countP_nil]
    cases hr : rs[i]? with
    | none => rfl
    | some r => simp [flagN_zero]
  | cons k ks ih =>
    rw [List.foldl_cons, ih, dup_step_getElem, Option.map_map]
    cases hr : rs[i]? with
    | none => rfl
    | some r =>
      simp only [Option.map, Function.comp]
      rw [step_el_invoice_id, step_el_flagN, flagN_flagN]
      simp only [List.countP_cons]
      rw [Nat.add_comm]

/-- Elements of the folded list are flagged versions of input elements. -/
theorem mem_dup_step {keys : List (String × String × String)} {rs : List VResult}
    {k : String × String × String} {x : VResult} (h : x ∈ dup_step keys rs k) :
    ∃ r ∈ rs, x = r ∨ x = flag_dup r := by
  unfold dup_step at h
  split at h
  · rcases List.mem_map.mp h with ⟨r, hr, hx⟩
    refine ⟨r, hr, ?_⟩
    split at hx
    · exact Or.inr hx.symm
    · exact Or.inl hx.symm
  · exact ⟨x, h, Or.inl rfl⟩

theorem mem_foldl_dup {keys ks : List (String × String × String)} {rs : List VResult}
    {x : VResult} (h : x ∈ ks.foldl (dup_step keys) rs) :
    ∃ r ∈ rs, ∃ n, x = flagN n r := by
  induction ks generalizing rs with
  | nil => exact ⟨x, h, 0, (flagN_zero x).symm⟩
  | cons k ks ih =>
    rw [List.foldl_cons] at h
    rcases ih h with ⟨r', hr', n, hx⟩
    rcases mem_dup_step hr' with ⟨r, hr, hcase⟩
    rcases hcase with hc | hc
    · exact ⟨r, hr, n, by rw [hx, hc]⟩
    · exact ⟨r, hr, 1 + n, by rw [hx, hc, flag_dup_eq_flagN_one, flagN_flagN]⟩

theorem validate_invoices_results (invs : List Invoice) :
    (validate_invoices invs).1 = dup_pass invs (invs.map validate_invoice) := rfl

theorem validate_invoices_length (invs : List Invoice) :
    ((validate_invoices invs).1).length = invs.length := by
  rw [validate_invoices_results]
  unfold dup_pass
  rw [foldl_dup_length, List.length_map]

theorem dup_pass_eq (invs : List Invoice) (rs : List VResult) :
    dup_pass invs rs =
      (firstOccs (invs.map dup_key)).foldl (dup_step (invs.map dup_key)) rs := rfl

theorem flagN_valid_iff {r : VResult} (h : r.is_valid = true ↔ r.errors = []) (n : Nat) :
    (flagN n r).is_valid = true ↔ (flagN n r).errors = [] := by
  cases n with
  | zero => rw [flagN_zero]; exact h
  | succ m => simp [flagN]

/-- C4: `is_valid` equals "errors empty" after the per-invoice pass and
after the whole batch pass, and the duplicate pass only appends (each final
result is its per-invoice result with `n` copies of the duplicate error
appended at the end, order and prior errors untouched). -/
theorem C4_is_valid_invariant :
    (∀ inv, (validate_invoice inv).is_valid = true ↔ (validate_invoice inv).errors = []) ∧
    (∀ invs, ∀ r ∈ (validate_invoices invs).1, r.is_valid = true ↔ r.errors = []) ∧
    (∀ invs (i : Nat), ∃ n,
      ((validate_invoices invs).1)[i]? =
        ((invs.map validate_invoice)[i]?).map (fun r => flagN n r)) := by
  refine ⟨validate_is_valid_iff, ?_, ?_⟩
  · intro invs r hr
    rw [validate_invoices_results, dup_pass_eq] at hr
    rcases mem_foldl_dup hr with ⟨r₀, hr₀, n, hflag⟩
    rcases List.mem_map.mp hr₀ with ⟨inv, _, hv⟩
    rw [hflag]
    exact flagN_valid_iff (hv ▸ validate_is_valid_iff inv) n
  · intro invs i
    have hfold := foldl_dup_getElem (invs.map dup_key) (firstOccs (invs.map dup_key))
      (invs.map validate_invoice) i
    cases hr : (invs.map validate_invoice)[i]? with
    | none =>
      refine ⟨0, ?_⟩
      rw [validate_invoices_results, dup_pass_eq, hfold, hr]
      rfl
    | some r =>
      refine ⟨(firstOccs (invs.map dup_key)).countP
        (fun k => dup_hits (invs.map dup_key) k r.invoice_id), ?_⟩
      rw [validate_invoices_results, dup_pass_eq, hfold, hr]
      rfl

/-- Witness for C4: the flagged result of a duplicated concrete invoice
still satisfies the validity/errors equivalence. -/
theorem C4_is_valid_invariant_witness :
    (flag_dup (validate_invoice
        { invoice_number := some "I1", seller_name := some "S",
          invoice_date := some "2024-01-10" })).is_valid = true ↔
      (flag_dup (validate_invoice
        { invoice_number := some "I1", seller_name := some "S",
          invoice_date := some "2024-01-10" })).errors = [] :=
  C4_is_valid_invariant.2.1
    [{ invoice_number := some "I1", seller_name := some "S",
       invoice_date := some "2024-01-10" },
     { invoice_number := some "I1", seller_name := some "S",
       invoice_date := some "2024-01-10" }]
    _ (by decide)

/-- C7: validation is total — every batch yields exactly one result per
input record — and the amount parser yields `none` (rather than raising) on
whatever it cannot parse, e.g. on `"12abc"`. -/
theorem C7_never_raises :
    (∀ invs, ((validate_invoices invs).1).length = invs.length) ∧
    (∀ s, parse_float (some s) = none ∨ ∃ q, parse_float (some s) = some q) ∧
    parse_float (some "12abc") = none := by
  refine ⟨validate_invoices_length, ?_, by decide⟩
  intro s
  cases h : parse_float (some s) with
  | none => exact Or.inl rfl
  | some q => exact Or.inr ⟨q, rfl⟩

theorem validate_invoice_id (inv : Invoice) :
    (validate_invoice inv).invoice_id = invoice_id_of inv := rfl

theorem invoice_id_of_num {inv : Invoice} (h : orEmpty inv.invoice_number ≠ "") :
    invoice_id_of inv = orEmpty inv.invoice_number := by
  unfold invoice_id_of
  rw [if_pos h]

theorem firstOccs_pair {α : Type} [DecidableEq α] (a : α) :
    firstOccs [a, a] = [a] := by
  simp [firstOccs, firstOccsAux]

/-- C1: the duplicate pass flags exactly the results whose `invoice_id`
equals a duplicated, not-all-empty key's truthy invoice number.  In
particular: two invoices with the same entirely non-empty key triple are
both flagged and forced invalid; a batch of one invoice is returned
unchanged; and a duplicated key whose invoice-number component is empty
flags nothing. -/
theorem C1_duplicate_detection :
    (∀ invs (i : Nat),
      ((validate_invoices invs).1)[i]? =
        ((invs.map validate_invoice)[i]?).map (fun r =>
          flagN ((firstOccs (invs.map dup_key)).countP
            (fun k => dup_hits (invs.map dup_key) k r.invoice_id)) r)) ∧
    (∀ inv1 inv2 : Invoice,
      dup_key inv1 = dup_key inv2 →
      (dup_key inv1).1 ≠ "" → (dup_key inv1).2.1 ≠ "" → (dup_key inv1).2.2 ≠ "" →
      (validate_invoices [inv1, inv2]).1 =
        [flag_dup (validate_invoice inv1), flag_dup (validate_invoice inv2)]) ∧
    (∀ inv : Invoice, (validate_invoices [inv]).1 = [validate_invoice inv]) ∧
    (∀ inv1 inv2 : Invoice,
      dup_key inv1 = dup_key inv2 →
      (dup_key inv1).1 = "" →
      (validate_invoices [inv1, inv2]).1 =
        [validate_invoice inv1, validate_invoice inv2]) := by
  refine ⟨?_, ?_, ?_, ?_⟩
  · intro invs i
    rw [validate_invoices_results, dup_pass_eq, foldl_dup_getElem]
  · intro inv1 inv2 hk hn hs hd
    rw [validate_invoices_results, dup_pass_eq]
    have hkeys : [inv1, inv2].map dup_key = [dup_key inv1, dup_key inv1] := by
      simp [← hk]
    rw [hkeys, firstOccs_pair, List.foldl_cons, List.foldl_nil]
    unfold dup_step
    rw [if_pos ⟨by simp, by simp [key_nonempty, hn]⟩]
    have hid1 : (validate_invoice inv1).invoice_id = (dup_key inv1).1 := by
      rw [validate_invoice_id, invoice_id_of_num hn]; rfl
    have hid2 : (validate_invoice inv2).invoice_id = (dup_key inv1).1 := by
      have hn2 : orEmpty inv2.invoice_number ≠ "" := by
        have : (dup_key inv2).1 = orEmpty inv2.invoice_number := rfl
        rw [hk] at hn
        rw [← this]
        exact hn
      rw [validate_invoice_id, invoice_id_of_num hn2]
      have h2 : (dup_key inv2).1 = orEmpty inv2.invoice_number := rfl
      rw [← h2, ← hk]
    simp only [List.map_cons, List.map_nil]
    rw [if_pos ⟨hn, hid1⟩, if_pos ⟨hn, hid2⟩]
  · intro inv
    rw [validate_invoices_results, dup_pass_eq]
    simp only [List.map_cons, List.map_nil]
    have : firstOccs [dup_key inv] = [dup_key inv] := by
      simp [firstOccs, firstOccsAux]
    rw [this, List.foldl_cons, List.foldl_nil]
    unfold dup_step
    rw [if_neg]
    intro ⟨hcnt, _⟩
    simp [List.count_cons] at hcnt
  · intro inv1 inv2 hk hempty
    rw [validate_invoices_results, dup_pass_eq]
    have hkeys : [inv1, inv2].map dup_key = [dup_key inv1, dup_key inv1] := by
      simp [← hk]
    rw [hkeys, firstOccs_pair, List.foldl_cons, List.foldl_nil]
    unfold dup_step
    split
    · simp only [List.map_cons, List.map_nil]
      rw [if_neg (fun hp => hp.1 hempty), if_neg (fun hp => hp.1 hempty)]
    · rfl

/-- Witness for C1 at concrete batches. -/
theorem C1_duplicate_detection_witness :
    ((validate_invoices
        [{ invoice_number := some "I1", seller_name := some "S",
           invoice_date := some "2024-01-10" },
         { invoice_number := some "I1", seller_name := some "S",
           invoice_date := some "2024-01-10" }]).1 =
      [flag_dup (validate_invoice
          { invoice_number := some "I1", seller_name := some "S",
            invoice_date := some "2024-01-10" }),
       flag_dup (validate_invoice
          { invoice_number := some "I1", seller_name := some "S",
            invoice_date := some "2024-01-10" })]) ∧
    ((validate_invoices
        [({ invoice_number := none, seller_name := some "S",
            invoice_date := some "2024-01-10" } : Invoice),
         { invoice_number := none, seller_name := some "S",
           invoice_date := some "2024-01-10" }]).1 =
      [validate_invoice
          { invoice_number := none, seller_name := some "S",
            invoice_date := some "2024-01-10" },
       validate_invoice
          { invoice_number := none, seller_name := some "S",
            invoice_date := some "2024-01-10" }]) :=
  ⟨C1_duplicate_detection.2.1 _ _ rfl (by decide) (by decide) (by decide),
   C1_duplicate_detection.2.2.2 _ _ rfl (by decide)⟩

/-- C6: a document whose text extraction fails still yields an invoice in
place — all fields unset, no line items, failure flag raised, source name
kept — the rest of the batch is processed unchanged, and validating the
failed invoice reports a missing-field error for every required field. -/
theorem C6_extraction_failure_isolated :
    (∀ (ef : String → Invoice) (pre suf : List ExtractedDoc) (fname : String),
      is_pdf_name fname = true →
      extract_invoices_from_pdfs ef (pre ++ ⟨fname, none⟩ :: suf) =
        extract_invoices_from_pdfs ef pre ++
          failed_invoice fname :: extract_invoices_from_pdfs ef suf) ∧
    (∀ fname, (failed_invoice fname).extraction_error = true ∧
      (failed_invoice fname).source_file = some fname ∧
      (failed_invoice fname).line_items = []) ∧
    (∀ fname, ∀ fld ∈ REQUIRED_FIELDS,
      ("missing_field: " ++ fld) ∈ (validate_invoice (failed_invoice fname)).errors) := by
  refine ⟨?_, fun fname => ⟨rfl, rfl, rfl⟩, ?_⟩
  · intro ef pre suf fname hpdf
    unfold extract_invoices_from_pdfs
    rw [List.filter_append, List.map_append, List.filter_cons, if_pos hpdf, List.map_cons]
  · intro fname fld hfld
    have he : (validate_invoice (failed_invoice fname)).errors =
        ["missing_field: invoice_number", "missing_field: invoice_date",
         "missing_field: seller_name", "missing_field: buyer_name",
         "missing_field: currency", "missing_field: gross_total",
         "missing_field: currency"] := rfl
    rw [he]
    fin_cases hfld <;> decide

/-- Witness for C6 on a concrete two-document batch. -/
theorem C6_extraction_failure_isolated_witness :
    (extract_invoices_from_pdfs no_fields_extractor [⟨"a.pdf", none⟩, ⟨"b.pdf", some "x"⟩] =
      extract_invoices_from_pdfs no_fields_extractor [] ++
        failed_invoice "a.pdf" ::
          extract_invoices_from_pdfs no_fields_extractor [⟨"b.pdf", some "x"⟩]) ∧
    ("missing_field: " ++ "currency") ∈
      (validate_invoice (failed_invoice "a.pdf")).errors :=
  ⟨C6_extraction_failure_isolated.1 no_fields_extractor [] [⟨"b.pdf", some "x"⟩] "a.pdf"
      (by decide),
   C6_extraction_failure_isolated.2.2 "a.pdf" "currency" (by decide)⟩

/-! ## Date-rule localisation -/

theorem invalid_ne_range (nm : String) :
    "invalid_format: " ++ nm ≠ "out_of_range: " ++ nm := by
  intro h
  have h2 : ("invalid_format: ").length + nm.length =
      ("out_of_range: ").length + nm.length := by
    rw [← String.length_append, ← String.length_append, h]
  rw [show ("invalid_format: ").length = 16 from rfl,
    show ("out_of_range: ").length = 14 from rfl] at h2
  omega

theorem mem_invalid_date_field_iff (raw nm : String) :
    ("invalid_format: " ++ nm) ∈ date_field_errors raw nm ↔
      raw ≠ "" ∧ parse_date raw = none := by
  cases hp : parse_date raw with
  | none =>
    simp only [date_field_errors, hp]
    by_cases hr : raw = "" <;> simp [hr]
  | some d =>
    simp only [date_field_errors, hp]
    constructor
    · intro h
      split at h
      · exact absurd h (List.not_mem_nil _)
      · exact absurd (List.mem_singleton.mp h) (invalid_ne_range nm)
    · rintro ⟨_, hnone⟩
      exact absurd hnone (by simp)

theorem mem_range_date_field_iff (raw nm : String) :
    ("out_of_range: " ++ nm) ∈ date_field_errors raw nm ↔
      ∃ d, parse_date raw = some d ∧ date_in_range d = false := by
  cases hp : parse_date raw with
  | none =>
    simp only [date_field_errors, hp]
    constructor
    · intro h
      split at h
      · exact absurd h (List.not_mem_nil _)
      · exact absurd (List.mem_singleton.mp h).symm (invalid_ne_range nm)
    · rintro ⟨d, hd, _⟩
      exact absurd hd (by simp)
  | some d =>
    simp only [date_field_errors, hp]
    by_cases hr : date_in_range d = true
    · simp [hr]
    · rw [Bool.not_eq_true] at hr
      simp [hr]

theorem date_field_not_both (raw nm : String) :
    ¬(("invalid_format: " ++ nm) ∈ date_field_errors raw nm ∧
      ("out_of_range: " ++ nm) ∈ date_field_errors raw nm) := by
  rintro ⟨h1, h2⟩
  rw [mem_invalid_date_field_iff] at h1
  rw [mem_range_date_field_iff] at h2
  rcases h2 with ⟨d, hd, _⟩
  rw [h1.2] at hd
  exact absurd hd (by simp)

theorem mem_errors_inv_date_iff (inv : Invoice) (x : String)
    (hx1 : x = "invalid_format: " ++ "invoice_date" ∨ x = "out_of_range: " ++ "invoice_date") :
    x ∈ (validate_invoice inv).errors ↔
      x ∈ date_field_errors (orEmpty inv.invoice_date) "invoice_date" := by
  rw [validate_invoice_errors]
  simp only [List.mem_append]
  constructor
  · rintro (((((((h | h) | h) | h) | h) | h) | h) | h)
    · rcases hx1 with hx | hx <;>
        (subst hx; exact absurd (mem_req_errors h) (by decide))
    · exact h
    · rcases mem_date_field_errors h with h' | h' <;> rcases hx1 with hx | hx <;>
        (subst hx; rw [h']; exact absurd h' (by decide))
    · rcases mem_currency_errors h with h' | h' <;> rcases hx1 with hx | hx <;>
        (subst hx; exact absurd h' (by decide))
    · rcases mem_negative_errors h with h' | h' | h' <;> rcases hx1 with hx | hx <;>
        (subst hx; exact absurd h' (by decide))
    · rcases hx1 with hx | hx <;>
        (subst hx; exact absurd (mem_totals_errors h) (by decide))
    · rcases hx1 with hx | hx <;>
        (subst hx; exact absurd (mem_line_sum_errors h) (by decide))
    · rcases hx1 with hx | hx <;>
        (subst hx; exact absurd (mem_date_order_errors h) (by decide))
  · intro h
    exact Or.inl (Or.inl (Or.inl (Or.inl (Or.inl (Or.inl (Or.inr h))))))

theorem mem_errors_due_date_iff (inv : Invoice) (x : String)
    (hx1 : x = "invalid_format: " ++ "due_date" ∨ x = "out_of_range: " ++ "due_date") :
    x ∈ (validate_invoice inv).errors ↔
      x ∈ date_field_errors (orEmpty inv.due_date) "due_date" := by
  rw [validate_invoice_errors]
  simp only [List.mem_append]
  constructor
  · rintro (((((((h | h) | h) | h) | h) | h) | h) | h)
    · rcases hx1 with hx | hx <;>
        (subst hx; exact absurd (mem_req_errors h) (by decide))
    · rcases mem_date_field_errors h with h' | h' <;> rcases hx1 with hx | hx <;>
        (subst hx; exact absurd h' (by decide))
    · exact h
    · rcases mem_currency_errors h with h' | h' <;> rcases hx1 with hx | hx <;>
        (subst hx; exact absurd h' (by decide))
    · rcases mem_negative_errors h with h' | h' | h' <;> rcases hx1 with hx | hx <;>
        (subst hx; exact absurd h' (by decide))
    · rcases hx1 with hx | hx <;>
        (subst hx; exact absurd (mem_totals_errors h) (by decide))
    · rcases hx1 with hx | hx <;>
        (subst hx; exact absurd (mem_line_sum_errors h) (by decide))
    · rcases hx1 with hx | hx <;>
        (subst hx; exact absurd (mem_date_order_errors h) (by decide))
  · intro h
    exact Or.inl (Or.inl (Or.inl (Or.inl (Or.inl (Or.inr h)))))

/-- C8: each present date field is parsed against the five formats in
order; a non-empty unparseable value yields "invalid_format" for the field,
a parsed date outside [2000-01-01, 2100-01-01] yields "out_of_range", never
both; and each of the five formats parses (shown on 2024-01-10). -/
theorem C8_date_rules :
    (∀ inv, "invalid_format: invoice_date" ∈ (validate_invoice inv).errors ↔
      orEmpty inv.invoice_date ≠ "" ∧ parse_date (orEmpty inv.invoice_date) = none) ∧
    (∀ inv, "out_of_range: invoice_date" ∈ (validate_invoice inv).errors ↔
      ∃ d, parse_date (orEmpty inv.invoice_date) = some d ∧ date_in_range d = false) ∧
    (∀ inv, ¬("invalid_format: invoice_date" ∈ (validate_invoice inv).errors ∧
      "out_of_range: invoice_date" ∈ (validate_invoice inv).errors)) ∧
    (∀ inv, "invalid_format: due_date" ∈ (validate_invoice inv).errors ↔
      orEmpty inv.due_date ≠ "" ∧ parse_date (orEmpty inv.due_date) = none) ∧
    (∀ inv, "out_of_range: due_date" ∈ (validate_invoice inv).errors ↔
      ∃ d, parse_date (orEmpty inv.due_date) = some d ∧ date_in_range d = false) ∧
    (∀ inv, ¬("invalid_format: due_date" ∈ (validate_invoice inv).errors ∧
      "out_of_range: due_date" ∈ (validate_invoice inv).errors)) ∧
    (parse_date "2024-01-10" = some ⟨2024, 1, 10⟩ ∧
      parse_date "10-01-2024" = some ⟨2024, 1, 10⟩ ∧
      parse_date "10/01/2024" = some ⟨2024, 1, 10⟩ ∧
      parse_date "10.01.2024" = some ⟨2024, 1, 10⟩ ∧
      parse_date "2024/01/10" = some ⟨2024, 1, 10⟩) := by
  have e1 : ("invalid_format: invoice_date" : String) =
    "invalid_format: " ++ "invoice_date" := rfl
  have e2 : ("out_of_range: invoice_date" : String) =
    "out_of_range: " ++ "invoice_date" := rfl
  have e3 : ("invalid_format: due_date" : String) = "invalid_format: " ++ "due_date" := rfl
  have e4 : ("out_of_range: due_date" : String) = "out_of_range: " ++ "due_date" := rfl
  refine ⟨?_, ?_, ?_, ?_, ?_, ?_, by decide⟩
  · intro inv
    rw [e1, mem_errors_inv_date_iff inv _ (Or.inl rfl), mem_invalid_date_field_iff]
  · intro inv
    rw [e2, mem_errors_inv_date_iff inv _ (Or.inr rfl), mem_range_date_field_iff]
  · intro inv
    rintro ⟨h1, h2⟩
    rw [e1, mem_errors_inv_date_iff inv _ (Or.inl rfl)] at h1
    rw [e2, mem_errors_inv_date_iff inv _ (Or.inr rfl)] at h2
    exact date_field_not_both _ _ ⟨h1, h2⟩
  · intro inv
    rw [e3, mem_errors_due_date_iff inv _ (Or.inl rfl), mem_invalid_date_field_iff]
  · intro inv
    rw [e4, mem_errors_due_date_iff inv _ (Or.inr rfl), mem_range_date_field_iff]
  · intro inv
    rintro ⟨h1, h2⟩
    rw [e3, mem_errors_due_date_iff inv _ (Or.inl rfl)] at h1
    rw [e4, mem_errors_due_date_iff inv _ (Or.inr rfl)] at h2
    exact date_field_not_both _ _ ⟨h1, h2⟩

/-- Witness for C8: an unparseable `invoice_date` is reported as
"invalid_format", a 1999 date as "out_of_range". -/
theorem C8_date_rules_witness :
    "invalid_format: invoice_date" ∈
      (validate_invoice ({ invoice_date := some "99/99/9999" } : Invoice)).errors ∧
    "out_of_range: due_date" ∈
      (validate_invoice ({ due_date := some "1999-01-01" } : Invoice)).errors :=
  ⟨(C8_date_rules.1 _).mpr ⟨by decide, by decide⟩,
   (C8_date_rules.2.2.2.2.1 _).mpr ⟨⟨1999, 1, 1⟩, by decide, by decide⟩⟩

/-- C9: no qualifying header line means no line items; otherwise parsing
starts after the first header, stops exclusively at the first "total" line,
skips lines whose last token is not numeric, takes the first parseable
leading token as quantity and the next as unit price, joins the rest into
the description, and falls back to the placeholder "Item". -/
theorem C9_line_item_extraction :
    (∀ text : String, (∀ ln ∈ toLines text, is_header_line ln = false) →
      extract_line_items text = []) ∧
    (extract_line_items
        "Intro words\nDescription Qty Price Amount\nWidget A 2 5.00 10.00\nGadget x 3,50\nskip me\nTotal 13.50\nleftover 7 7" =
      [{ description := "Widget A", quantity := some 2, unit_price := some 5,
         line_total := some 10 },
       { description := "Gadget x", quantity := none, unit_price := none,
         line_total := some (mkRat 7 2) }]) ∧
    (extract_line_items "Description Rate\n42\nTotal 42" =
      [{ description := "Item", quantity := none, unit_price := none,
         line_total := some 42 }]) := by
  refine ⟨?_, by decide, by decide⟩
  intro text h
  have hidx : (toLines text).findIdx? is_header_line = none :=
    List.findIdx?_eq_none_iff.mpr (fun ln hln => by simp [h ln hln])
  simp only [extract_line_items]
  rw [hidx]

/-- Witness for C9 on a header-free text. -/
theorem C9_line_item_extraction_witness :
    extract_line_items "just ordinary text\n1 2 3" = [] :=
  C9_line_item_extraction.1 _ (by decide)

/-! ## Currency-inference case sensitivity -/

theorem find_code_none_iff (codes : List String) (prev : Option Char) (cs : List Char) :
    find_code codes prev cs = none ↔
      ∀ code ∈ codes, word_occurs_from code prev cs = false := by
  induction cs generalizing prev with
  | nil => simp [find_code, word_occurs_from]
  | cons c rest ih =>
    unfold find_code
    cases hf : codes.find? (fun code => code_matches_at code.data prev (c :: rest)) with
    | some code =>
      constructor
      · intro h
        exact absurd h (by simp)
      · intro hall
        exfalso
        have hmem := List.mem_of_find?_eq_some hf
        have hp := List.find?_some hf
        have hfalse := hall code hmem
        unfold word_occurs_from at hfalse
        rw [hp] at hfalse
        simp at hfalse
    | none =>
      rw [ih]
      have hnone := List.find?_eq_none.mp hf
      constructor
      · intro h code hcode
        unfold word_occurs_from
        rw [h code hcode]
        have := hnone code hcode
        simp only [Bool.not_eq_true] at this
        rw [this]
        rfl
      · intro h code hcode
        have := h code hcode
        unfold word_occurs_from at this
        exact (Bool.or_eq_false_iff.mp this).2

/-- C10: the explicit-code branch of currency inference is case-sensitive —
a text with no exact-case code occurrence and no currency symbol infers
nothing, e.g. on "Invoice total eur 100" — although the validator accepts a
currency value of any case ("eur" raises no whitelist error). -/
theorem C10_currency_inference_case_sensitive :
    (∀ text : String,
      (∀ code ∈ CURRENCY_CODES, word_occurs code text = false) →
      text.data.contains '₹' = false → text.data.contains '€' = false →
      text.data.contains '$' = false → text.data.contains '£' = false →
      infer_currency_from_text text = none) ∧
    infer_currency_from_text "Invoice total eur 100" = none ∧
    infer_currency_from_text "Invoice total EUR 100" = some "EUR" ∧
    "invalid_value: currency" ∉
      (validate_invoice ({ currency := some "eur" } : Invoice)).errors := by
  refine ⟨?_, by decide, by decide, by decide⟩
  intro text hcodes h1 h2 h3 h4
  unfold infer_currency_from_text
  rw [(find_code_none_iff CURRENCY_CODES none text.data).mpr
    (fun code hcode => hcodes code hcode)]
  rw [h1, h2, h3, h4]
  rfl

/-- Witness for C10: the lowercase-only text through the universal part. -/
theorem C10_currency_inference_witness :
    infer_currency_from_text "paid in eur today" = none :=
  C10_currency_inference_case_sensitive.1 _ (by decide) (by decide) (by decide)
    (by decide) (by decide)

end InvoiceQC
